import Mathlib

/-!
Verification of the NeuraDoc retrieval-and-scoring pipeline
(`backend/utils/qa_engine.py`, `backend/utils/evaluator.py`,
`backend/utils/challenge_gen.py`).

Text is modelled as `List Char`.  Python regex classes are modelled over
ASCII: `\s` as the six ASCII whitespace characters and `\w` as
alphanumerics plus underscore.  Rational numbers stand in for Python
floats.  The two heavyweight external capabilities (the sentence
embedder composed with cosine similarity, and the span-extraction
model) are external collaborators of the repository; they are
modelled as function parameters (`Option (List Char → List Char → ℚ)`
for query/candidate similarity, and per-chunk extractor results for the
span extractor), exactly as the pipeline consumes them.  The NLTK
stop-word list and Python's `random` source are likewise external
inputs and appear as parameters (a stop-word list, and a natural-number
oracle for random draws).
-/

namespace NeuraDoc

/-- Python `\s` on the inputs considered here (ASCII whitespace). -/
def isWSChar (c : Char) : Bool :=
  c = ' ' || c = '\t' || c = '\n' || c = '\r' || c = '\x0b' || c = '\x0c'

/-- Python `\w`: alphanumeric or underscore (ASCII model). -/
def isWordChar (c : Char) : Bool :=
  c.isAlphanum || c = '_'

/-- Sentence-ending punctuation used by the splitting regex `(?<=[.!?])`. -/
def isEndPunct (c : Char) : Bool :=
  c = '.' || c = '!' || c = '?'

/-- Model of `str.lower()` (ASCII model). -/
def toLowerL (cs : List Char) : List Char :=
  cs.map Char.toLower

/-- Model of `str.strip()`: drop leading and trailing whitespace. -/
def stripL (cs : List Char) : List Char :=
  ((cs.dropWhile isWSChar).reverse.dropWhile isWSChar).reverse

/-- Contiguous-substring relation: `s` occurs verbatim inside `t`. -/
def SubSeg (s t : List Char) : Prop :=
  ∃ u v, t = u ++ s ++ v

/-- State of the scanner for `re.split(r'(?<=[.!?])\s+', text)`.
`pieces` are the finished split pieces, `cur` the piece being built,
`inSep` whether we are inside a separator (a whitespace run that
followed `.`, `!` or `?`), and `lastPunct` whether the previously
consumed character was one of `.`, `!`, `?`. -/
structure SplitSt where
  pieces : List (List Char)
  cur : List Char
  inSep : Bool
  lastPunct : Bool

def splitStep (st : SplitSt) (c : Char) : SplitSt :=
  if st.inSep then
    if isWSChar c then st
    else { pieces := st.pieces, cur := [c], inSep := false, lastPunct := isEndPunct c }
  else
    if st.lastPunct && isWSChar c then
      { pieces := st.pieces ++ [st.cur], cur := [], inSep := true, lastPunct := false }
    else
      { pieces := st.pieces, cur := st.cur ++ [c], inSep := false, lastPunct := isEndPunct c }

/-- Model of `re.split(r'(?<=[.!?])\s+', text)`: split at maximal whitespace runs
that immediately follow sentence-ending punctuation. -/
def reSplitSent (cs : List Char) : List (List Char) :=
  let st := cs.foldl splitStep ⟨[], [], false, false⟩
  st.pieces ++ [st.cur]

/-- Model of `_split_into_sentences` (identical in `qa_engine.py` and
`evaluator.py`): split on the regex, strip each piece, keep the pieces
longer than 10 characters. -/
def splitIntoSentences (cs : List Char) : List (List Char) :=
  ((reSplitSent cs).map stripL).filter (fun s => 10 < s.length)

/-- Model of `' '.join(...)`. -/
def joinSpace : List (List Char) → List Char
  | [] => []
  | [x] => x
  | x :: xs => x ++ ' ' :: joinSpace xs

/-- Model of `QAEngine._split_document_into_chunks` with the default
`chunk_size = 500`: the loop over `range(0, len(sentences), 250)`
keeping each space-joined window `sentences[i : i + 500]` whose
stripped text is non-empty. -/
def splitDocumentIntoChunks (text : List Char) : List (List Char) :=
  let sentences := splitIntoSentences text
  ((List.range sentences.length).filter (fun i => i % 250 = 0)).filterMap
    (fun i =>
      let c := joinSpace ((sentences.drop i).take 500)
      if (stripL c).length ≠ 0 then some c else none)

/-- Deduplication keeping first occurrences: the membership-and-size
view of a Python `set` built by iterating a list. -/
def firstDedupGo (seen : List (List Char)) : List (List Char) → List (List Char)
  | [] => []
  | x :: xs =>
    if seen.contains x then firstDedupGo seen xs
    else x :: firstDedupGo (seen ++ [x]) xs

def firstDedup (l : List (List Char)) : List (List Char) :=
  firstDedupGo [] l

/-- Model of `l₂.startsWith l₁` on character lists. -/
def startsWithL : List Char → List Char → Bool
  | [], _ => true
  | _ :: _, [] => false
  | a :: as, b :: bs => a = b && startsWithL as bs

/-- Python's substring test `needle in hay`. -/
def containsSub (needle : List Char) : List Char → Bool
  | [] => startsWithL needle []
  | c :: rest => startsWithL needle (c :: rest) || containsSub needle rest

/-- Maximal runs of characters satisfying `p` (the shared skeleton of
`re.findall(r'\b\w+\b', s)` and of whitespace tokenization). -/
def runsBy (p : Char → Bool) (cs : List Char) : List (List Char) :=
  let st := cs.foldl
    (fun (st : List (List Char) × List Char) c =>
      if p c then (st.1, st.2 ++ [c])
      else (st.1 ++ (if st.2 = [] then [] else [st.2]), []))
    ([], [])
  st.1 ++ (if st.2 = [] then [] else [st.2])

/-- Model of `re.findall(r'\b\w+\b', s)`: the maximal word-character runs. -/
def wordsIn (cs : List Char) : List (List Char) :=
  runsBy isWordChar cs

/-- Model of `str.split()` with no argument: maximal non-whitespace runs. -/
def splitWS (cs : List Char) : List (List Char) :=
  runsBy (fun c => !isWSChar c) cs

/-- Insert an (index, value) pair into a value-ascending sorted list,
before the first entry of value ≥ its own.  Later insertions therefore
land before equal values already present, which makes `isortQ` below a
stable ascending sort when elements are inserted head-first. -/
def insertA (p : ℕ × ℚ) : List (ℕ × ℚ) → List (ℕ × ℚ)
  | [] => [p]
  | q :: rest => if p.2 ≤ q.2 then p :: q :: rest else q :: insertA p rest

/-- Stable ascending sort by value of an (index, value) list: the model
of `np.argsort` (numpy's small-array sort keeps equal keys in index
order). -/
def isortQ : List (ℕ × ℚ) → List (ℕ × ℚ)
  | [] => []
  | x :: xs => insertA x (isortQ xs)

/-- The similarity threshold 0.3, written in normalized form (numerator
and denominator fields) so that kernel evaluation can reduce it;
`r0_3_eq` below identifies it with `3/10`. -/
def r0_3 : ℚ := ⟨3, 10, by norm_num, by norm_num⟩

/-- The lexical overlap threshold 0.2 in normalized form; `r0_2_eq`
below identifies it with `1/5`. -/
def r0_2 : ℚ := ⟨1, 5, by norm_num, by norm_num⟩

/-- Fixture rational 1/10 in normalized form. -/
def r0_1 : ℚ := ⟨1, 10, by norm_num, by norm_num⟩

/-- Fixture rational 1/2 in normalized form. -/
def rHalf : ℚ := ⟨1, 2, by norm_num, by norm_num⟩

/-- Fixture rational 9/10 in normalized form. -/
def rNine10 : ℚ := ⟨9, 10, by norm_num, by norm_num⟩

/-- Pair each similarity with its index, starting from `n`. -/
def enumFromIdx (n : ℕ) : List ℚ → List (ℕ × ℚ)
  | [] => []
  | x :: xs => (n, x) :: enumFromIdx (n + 1) xs

/-- The ascending-sort order realized by `isortQ` on index/value pairs:
by value, ties by index.  `np.argsort`'s output is sorted this way. -/
def argOrd (p q : ℕ × ℚ) : Prop :=
  p.2 < q.2 ∨ (p.2 = q.2 ∧ p.1 < q.1)

/-- Model of `np.argsort(similarities)[::-1][:k]`: indices by descending
similarity, equal similarities in descending index order (the `[::-1]`
reversal of a stable ascending argsort). -/
def rankIdx (k : ℕ) (sims : List ℚ) : List ℕ :=
  (((isortQ (enumFromIdx 0 sims)).map Prod.fst).reverse).take k

/-- Model of `QAEngine._find_relevant_chunks`.  The embedder composed with
cosine similarity is the external capability `sim`; `sim = none` is the
degraded path (`return chunks[:3]`). -/
def findRelevantChunks (sim : Option (List Char → List Char → ℚ))
    (question : List Char) (chunks : List (List Char)) : List (List Char) :=
  match sim with
  | none => chunks.take 3
  | some f =>
    let sims := chunks.map (f question)
    let rel := (rankIdx 3 sims).filterMap
      (fun i => if r0_3 < sims.getD i 0 then some (chunks.getD i []) else none)
    if rel = [] then chunks.take 2 else rel

/-- Model of `AnswerEvaluator._find_relevant_sentences`. -/
def findRelevantSentences (sim : Option (List Char → List Char → ℚ))
    (question : List Char) (documentText : List Char) : List (List Char) :=
  let sentences := splitIntoSentences documentText
  match sim with
  | none => sentences.take 5
  | some f =>
    let sims := sentences.map (f question)
    let rel := (rankIdx 5 sims).filterMap
      (fun i => if r0_3 < sims.getD i 0 then some (sentences.getD i []) else none)
    if rel = [] then sentences.take 3 else rel

/-- Python list comparison on character lists (lexicographic by code
point), used by `list.sort` on `(score, sentence)` tuples. -/
def listLtChar : List Char → List Char → Bool
  | [], [] => false
  | [], _ :: _ => true
  | _ :: _, [] => false
  | a :: as, b :: bs =>
    if a.val < b.val then true
    else if b.val < a.val then false
    else listLtChar as bs

/-- Python tuple `<` on `(score, sentence)` pairs. -/
def pairLt (p q : ℚ × List Char) : Bool :=
  if p.1 < q.1 then true
  else if q.1 < p.1 then false
  else listLtChar p.2 q.2

/-- Insert into a descending sorted pair list, modelling the stability
of `list.sort(reverse=True)` (an earlier element goes before equal
tuples). -/
def insertPairD (x : ℚ × List Char) : List (ℚ × List Char) → List (ℚ × List Char)
  | [] => [x]
  | y :: r => if pairLt x y then y :: insertPairD x r else x :: y :: r

/-- Model of `sentence_scores.sort(reverse=True)`: stable descending sort by the
Python tuple order. -/
def sortPairsDesc : List (ℚ × List Char) → List (ℚ × List Char)
  | [] => []
  | x :: xs => insertPairD x (sortPairsDesc xs)

/-- Lowercased, deduplicated words of length > 3: the
`question_words` / `sentence_words` sets of
`QAEngine._generate_fallback_answer`. -/
def longWords (cs : List Char) : List (List Char) :=
  (firstDedup (wordsIn (toLowerL cs))).filter (fun w => 3 < w.length)

/-- The `(score, sentence)` accumulation loop of
`QAEngine._generate_fallback_answer`: for every sentence of every
chunk, score it by `overlap / len(question_words)` when the word
intersection is non-empty. -/
def sentenceScores (qw : List (List Char)) (chunks : List (List Char)) :
    List (ℚ × List Char) :=
  chunks.flatMap (fun ch =>
    (splitIntoSentences ch).filterMap (fun s =>
      let sw := longWords s
      let overlap := (qw.filter (fun w => w ∈ sw)).length
      if 0 < overlap then some (((overlap : ℚ) / (qw.length : ℚ)), s) else none))

/-- The fixed terminal answer of the lexical path. -/
def noAnswerMsg : List Char :=
  ("I couldn\x27t find a specific answer to your question in the document.").data

/-- Model of `QAEngine._generate_fallback_answer`. -/
def generateFallbackAnswer (question : List Char) (chunks : List (List Char)) :
    List Char × List (List Char) :=
  let qw := longWords question
  let sorted := sortPairsDesc (sentenceScores qw chunks)
  let top := (sorted.take 2).filterMap
    (fun p => if r0_2 < p.1 then some p.2 else none)
  if top = [] then (noAnswerMsg, [])
  else
    let answer := joinSpace top
    (if 300 < answer.length then answer.take 300 ++ ("...").data else answer, top)

/-- Running state of `QAEngine._generate_qa_answer`. -/
structure QAState where
  bestAnswer : List Char
  bestScore : ℚ
  sources : List (List Char)

def qaInit : QAState := ⟨[], 0, []⟩

/-- One chunk of input to the span-extractor loop: the chunk text and
the extractor's result on it (`none` when the pipeline call raised and
the loop `continue`d; otherwise the confidence score and the possibly
empty answer text). -/
abbrev QAInput := List Char × Option (ℚ × List Char)

/-- The loop body of `_generate_qa_answer`: adopt a strictly better
scored non-empty answer and cite the first sentence of the current
chunk containing it (case-insensitively), if any. -/
def qaStep (st : QAState) (p : QAInput) : QAState :=
  match p.2 with
  | none => st
  | some (sc, a) =>
    if st.bestScore < sc ∧ a ≠ [] then
      { bestAnswer := a, bestScore := sc,
        sources := st.sources ++
          (match (splitIntoSentences p.1).find?
              (fun s => containsSub (toLowerL a) (toLowerL s)) with
            | some s => [s]
            | none => []) }
    else st

/-- The non-empty-answer results of the extractor over the chunk list,
in order: the candidates the running maximum ranges over. -/
def validResults (l : List QAInput) : List (ℚ × List Char) :=
  l.filterMap (fun p =>
    match p.2 with
    | some (sc, a) => if a = [] then none else some (sc, a)
    | none => none)

/-- Model of `QAEngine._generate_qa_answer`: fold the extractor results, then
fall through to the lexical path when no answer was adopted. -/
def generateQAAnswer (question : List Char) (inputs : List QAInput) :
    List Char × List (List Char) :=
  let st := inputs.foldl qaStep qaInit
  if st.bestAnswer = [] then generateFallbackAnswer question (inputs.map Prod.fst)
  else (st.bestAnswer, st.sources)

/-- Model of `sep.join(parts)`. -/
def joinBy (sep : List Char) : List (List Char) → List Char
  | [] => []
  | [x] => x
  | x :: xs => x ++ sep ++ joinBy sep xs

/-- Python 3 `round` to an integer: round half to even. -/
def roundHalfEven (x : ℚ) : ℤ :=
  let f := ⌊x⌋
  let r := x - (f : ℚ)
  if r < (1 : ℚ)/2 then f
  else if (1 : ℚ)/2 < r then f + 1
  else if 2 ∣ f then f else f + 1

/-- Python `round(x, d)`. -/
def pyRound (x : ℚ) (d : ℕ) : ℚ :=
  ((roundHalfEven (x * ((10 : ℚ) ^ d))) : ℚ) / ((10 : ℚ) ^ d)

/-- Model of `AnswerEvaluator._get_grade`: the 8-band letter-grade table. -/
def getGrade (score : ℚ) : List Char :=
  if (9 : ℚ)/10 ≤ score then ("A+").data
  else if (8 : ℚ)/10 ≤ score then ("A").data
  else if (7 : ℚ)/10 ≤ score then ("B+").data
  else if (6 : ℚ)/10 ≤ score then ("B").data
  else if (5 : ℚ)/10 ≤ score then ("C+").data
  else if (4 : ℚ)/10 ≤ score then ("C").data
  else if (3 : ℚ)/10 ≤ score then ("D").data
  else ("F").data

/-- Numeric height of a letter grade (`F` lowest, `A+` highest), the
measurement along which grade monotonicity is stated. -/
def gradeRank (g : List Char) : ℕ :=
  if g = ("A+").data then 7
  else if g = ("A").data then 6
  else if g = ("B+").data then 5
  else if g = ("B").data then 4
  else if g = ("C+").data then 3
  else if g = ("C").data then 2
  else if g = ("D").data then 1
  else 0

/-- The result record of `AnswerEvaluator._create_evaluation`. -/
structure Evaluation where
  score : ℚ
  percentage : ℚ
  feedback : List Char
  analysis : List Char
  grade : List Char
deriving DecidableEq

/-- Model of `AnswerEvaluator._create_evaluation`. -/
def createEvaluation (score : ℚ) (feedback analysis : List Char) : Evaluation :=
  { score := pyRound score 2
    percentage := pyRound (score * 100) 1
    feedback := feedback
    analysis := analysis
    grade := getGrade score }

/-- Model of `AnswerEvaluator._combine_scores`: the 0.4/0.3/0.3 weighted sum,
clamped to [0, 1]. -/
def combineScores (semanticScore keywordScore contentScore : ℚ) : ℚ :=
  min (max (semanticScore * ((2 : ℚ)/5) + keywordScore * ((3 : ℚ)/10)
        + contentScore * ((3 : ℚ)/10)) 0) 1

/-- The stop-word-and-length-filtered word set shared by
`_calculate_keyword_overlap` and `_calculate_content_relevance`. -/
def significantWords (stopWords : List (List Char)) (cs : List Char) :
    List (List Char) :=
  (firstDedup (wordsIn (toLowerL cs))).filter
    (fun w => !(stopWords.contains w) && decide (3 < w.length))

/-- Model of `AnswerEvaluator._calculate_semantic_similarity`: mean similarity
between the user answer and each relevant sentence (0.5 neutral default
when the embedder is absent or no sentences were given). -/
def calcSemanticSimilarity (sim : Option (List Char → List Char → ℚ))
    (userAnswer : List Char) (relevant : List (List Char)) : ℚ :=
  match sim with
  | none => (1 : ℚ)/2
  | some f =>
    if relevant = [] then (1 : ℚ)/2
    else (relevant.map (f userAnswer)).sum / (relevant.length : ℚ)

/-- Model of `AnswerEvaluator._calculate_keyword_overlap`. -/
def calcKeywordOverlap (stopWords : List (List Char)) (userAnswer : List Char)
    (expectedConcepts : List (List Char)) : ℚ :=
  if expectedConcepts = [] then (1 : ℚ)/2
  else
    let answerWords := significantWords stopWords userAnswer
    let conceptWords := firstDedup
      (expectedConcepts.flatMap (fun c => wordsIn (toLowerL c)))
    if conceptWords = [] then (1 : ℚ)/2
    else
      min (((answerWords.filter (fun w => w ∈ conceptWords)).length : ℚ)
        / (conceptWords.length : ℚ)) 1

/-- Model of `AnswerEvaluator._calculate_content_relevance`. -/
def calcContentRelevance (stopWords : List (List Char)) (userAnswer : List Char)
    (relevant : List (List Char)) : ℚ :=
  if relevant = [] then (1 : ℚ)/2
  else
    let answerWords := significantWords stopWords userAnswer
    if answerWords = [] then 0
    else
      let sentenceWords := firstDedup
        (relevant.flatMap (fun s => significantWords stopWords s))
      if sentenceWords = [] then (1 : ℚ)/2
      else
        min (((answerWords.filter (fun w => w ∈ sentenceWords)).length : ℚ)
          / (answerWords.length : ℚ)) 1

/-- Model of `AnswerEvaluator._generate_feedback`: the five feedback bands. -/
def generateFeedback (overallScore : ℚ) : List Char :=
  if (4 : ℚ)/5 ≤ overallScore then
    ("Excellent answer! Your response demonstrates strong understanding of the document content.").data
  else if (3 : ℚ)/5 ≤ overallScore then
    ("Good answer! You\x27ve captured the main points, but could provide more specific details.").data
  else if (2 : ℚ)/5 ≤ overallScore then
    ("Fair answer. Consider including more relevant concepts and specific information from the document.").data
  else if (1 : ℚ)/5 ≤ overallScore then
    ("Your answer needs improvement. Try to focus more on the specific concepts mentioned in the question.").data
  else
    ("Your answer doesn\x27t seem to address the question effectively. Please review the document content.").data

/-- A challenge question: text, referenced concepts, category tag and
difficulty tag (the dictionaries produced by `challenge_gen.py` and
consumed by `evaluator.py`). -/
structure Question where
  question : List Char
  concepts : List (List Char)
  qtype : List Char
  difficulty : List Char
deriving DecidableEq

/-- Model of `AnswerEvaluator._generate_analysis`. -/
def generateAnalysis (q : Question) (userAnswer : List Char) (overallScore : ℚ) :
    List Char :=
  let answerLength := (splitWS userAnswer).length
  let lengthPart :=
    if answerLength < 10 then
      ("Your answer is quite brief. Consider providing more detailed explanations.").data
    else if 100 < answerLength then
      ("Your answer is comprehensive, which is good for demonstrating understanding.").data
    else
      ("Your answer has an appropriate length for this type of question.").data
  let conceptParts :=
    if q.concepts = [] then []
    else
      let covered := q.concepts.filter
        (fun c => containsSub (toLowerL c) (toLowerL userAnswer))
      if covered = [] then
        [("Consider including more of the key concepts mentioned in the question.").data]
      else
        [("You covered these key concepts: ").data ++ joinBy (", ").data covered
          ++ (".").data]
  let overallPart :=
    if (7 : ℚ)/10 ≤ overallScore then
      ("Overall, this is a strong response that demonstrates good comprehension.").data
    else if (1 : ℚ)/2 ≤ overallScore then
      ("This response shows some understanding but could be more specific.").data
    else
      ("This response needs significant improvement to demonstrate understanding.").data
  joinSpace ([lengthPart] ++ conceptParts ++ [overallPart])

/-- Model of `AnswerEvaluator.evaluate_answer`.  The `question` dictionary is
`none` when falsy (the `not question` test); `sim` is the external
embedder-plus-cosine capability; `stopWords` the external NLTK
stop-word list. -/
def evaluateAnswer (sim : Option (List Char → List Char → ℚ))
    (stopWords : List (List Char)) (question : Option Question)
    (userAnswer : List Char) (documentText : List Char) : Evaluation :=
  match question with
  | none =>
    createEvaluation 0 ("No answer provided").data
      ("Please provide a detailed answer.").data
  | some q =>
    if userAnswer = [] then
      createEvaluation 0 ("No answer provided").data
        ("Please provide a detailed answer.").data
    else
      let relevant := findRelevantSentences sim q.question documentText
      if relevant = [] then
        createEvaluation ((1 : ℚ)/2) ("Limited context available").data
          ("I couldn\x27t find specific information to evaluate your answer against.").data
      else
        let semantic := calcSemanticSimilarity sim userAnswer relevant
        let keyword := calcKeywordOverlap stopWords userAnswer q.concepts
        let content := calcContentRelevance stopWords userAnswer relevant
        let overall := combineScores semantic keyword content
        createEvaluation overall (generateFeedback overall)
          (generateAnalysis q userAnswer overall)

/-- Model of `re.sub(r'[^\w\s]', ' ', text.lower())`. -/
def cleanText (cs : List Char) : List Char :=
  (toLowerL cs).map (fun c => if isWordChar c || isWSChar c then c else ' ')

/-- Occurrence count of a word in a token list (the frequency table of
`_extract_key_concepts`). -/
def countOcc (w : List Char) (l : List (List Char)) : ℕ :=
  (l.filter (fun x => x = w)).length

/-- Insert into a count-descending sorted list, before the first entry
of count ≤ its own: the stability of Python's
`sorted(..., reverse=True)` (equal counts keep original order). -/
def insertCntD (x : List Char × ℕ) :
    List (List Char × ℕ) → List (List Char × ℕ)
  | [] => [x]
  | y :: r => if y.2 ≤ x.2 then x :: y :: r else y :: insertCntD x r

/-- Model of `sorted(word_freq.items(), key=count, reverse=True)` as a stable
descending insertion sort. -/
def sortCntDesc : List (List Char × ℕ) → List (List Char × ℕ)
  | [] => []
  | x :: xs => insertCntD x (sortCntDesc xs)

/-- Model of `ChallengeGenerator._extract_key_concepts`.  NLTK `word_tokenize`
is modelled as whitespace tokenization, with which it coincides on the
already punctuation-cleaned text. -/
def extractKeyConcepts (stopWords : List (List Char)) (text : List Char) :
    List (List Char) :=
  let ws := (wordsIn (cleanText text)).filter
    (fun w => !(stopWords.contains w) && decide (3 < w.length))
  let sortedW := sortCntDesc ((firstDedup ws).map (fun w => (w, countOcc w ws)))
  (sortedW.take 20).filterMap (fun p => if 2 < p.2 then some p.1 else none)

/-- The template table of `ChallengeGenerator`, with
`topic = concept1 = concept = c1` and `concept2 = c2` substituted as in
`template.format(...)`. -/
def questionTemplate (i : ℕ) (c1 c2 : List Char) : List Char :=
  match i with
  | 0 => ("What is the main argument presented about ").data ++ c1 ++ ("?").data
  | 1 => ("How does the document explain the relationship between ").data ++ c1
      ++ (" and ").data ++ c2 ++ ("?").data
  | 2 => ("What evidence does the author provide to support the claim about ").data
      ++ c1 ++ ("?").data
  | 3 => ("According to the document, what are the key factors that influence ").data
      ++ c1 ++ ("?").data
  | 4 => ("What conclusion can be drawn about ").data ++ c1
      ++ (" based on the information provided?").data
  | 5 => ("How does the document define or describe ").data ++ c1 ++ ("?").data
  | 6 => ("What are the implications of ").data ++ c1
      ++ (" as discussed in the document?").data
  | 7 => ("Based on the document, what is the significance of ").data ++ c1 ++ ("?").data
  | 8 => ("What are the main differences between ").data ++ c1 ++ (" and ").data
      ++ c2 ++ (" as described?").data
  | _ => ("How does the author justify their position on ").data ++ c1 ++ ("?").data

/-- Model of `ChallengeGenerator._generate_fallback_questions`. -/
def fallbackQuestions : List Question :=
  [⟨("What is the main topic discussed in this document?").data,
    [("main topic").data, ("document content").data],
    ("comprehension").data, ("easy").data⟩,
   ⟨("What are the key points or arguments presented in the document?").data,
    [("key points").data, ("arguments").data],
    ("analysis").data, ("medium").data⟩,
   ⟨("What conclusions or implications can be drawn from the information provided?").data,
    [("conclusions").data, ("implications").data],
    ("synthesis").data, ("hard").data⟩]

/-- NLTK `sent_tokenize`, modelled like the engine's own
punctuation-boundary splitter (pieces stripped, empties dropped). -/
def sentTokenize (cs : List Char) : List (List Char) :=
  ((reSplitSent cs).map stripL).filter (fun s => s ≠ [])

/-- Model of `ChallengeGenerator._generate_fallback_question`: quote the first
100 characters of a randomly chosen sentence among the first 10. -/
def generateFallbackQuestion (text : List Char) (oracle : ℕ → ℕ) (k : ℕ) :
    Question :=
  let sentences := sentTokenize text
  if sentences = [] then fallbackQuestions.getD 0 ⟨[], [], [], []⟩
  else
    let pool := sentences.take 10
    let key := pool.getD (oracle k % pool.length) []
    ⟨("What does the document state about the following: \x27").data
        ++ key.take 100 ++ ("...\x27?").data,
      [("document content").data, ("key information").data],
      ("comprehension").data, ("easy").data⟩

/-- Model of `random.sample(l, 2)` driven by the oracle: draw one element, then
one of the remaining ones. -/
def sample2 (oracle : ℕ → ℕ) (k : ℕ) (l : List (List Char)) :
    List Char × List Char :=
  let i := oracle k % l.length
  let rest := l.eraseIdx i
  (l.getD i [], rest.getD (oracle (k + 1) % rest.length) [])

/-- Model of `ChallengeGenerator._generate_single_question`. -/
def generateSingleQuestion (kc : List (List Char)) (used : List (List Char))
    (oracle : ℕ → ℕ) (k : ℕ) : Option Question :=
  if kc.length < 2 then none
  else
    let avail := kc.filter (fun c => !(used.contains c))
    let avail := if avail.length < 2 then kc.take 2 else avail
    let sel := sample2 oracle k avail
    let t := oracle (k + 2) % 10
    some ⟨questionTemplate t sel.1 sel.2, [sel.1, sel.2],
      ("logic").data, ("medium").data⟩

/-- Model of `ChallengeGenerator.generate_questions`: three attempts threading
the used-concept set, fallback padding to length 3, truncation to 3. -/
def generateQuestions (stopWords : List (List Char)) (oracle : ℕ → ℕ)
    (documentText : List Char) : List Question :=
  if (stripL documentText).length < 100 then fallbackQuestions
  else
    let kc := extractKeyConcepts stopWords documentText
    if kc.length < 2 then fallbackQuestions
    else
      let r1 := generateSingleQuestion kc [] oracle 0
      let u1 := (r1.map Question.concepts).getD []
      let r2 := generateSingleQuestion kc u1 oracle 3
      let u2 := u1 ++ (r2.map Question.concepts).getD []
      let r3 := generateSingleQuestion kc u2 oracle 6
      let qs := r1.toList ++ r2.toList ++ r3.toList
      let padded := qs ++ (List.range (3 - qs.length)).map
        (fun j => generateFallbackQuestion documentText oracle (9 + j))
      padded.take 3

/-! Section: Helper lemmas -/

lemma mem_of_mem_firstDedupGo (l : List (List Char)) :
    ∀ (seen : List (List Char)) (x : List Char), x ∈ firstDedupGo seen l → x ∈ l := by
  induction l with
  | nil => intro seen x h; exact absurd h (by simp [firstDedupGo])
  | cons y ys ih =>
    intro seen x h
    rw [firstDedupGo] at h
    by_cases hc : seen.contains y
    · rw [if_pos hc] at h
      exact List.mem_cons_of_mem _ (ih _ _ h)
    · rw [if_neg hc] at h
      rcases List.mem_cons.mp h with h' | h'
      · exact h' ▸ List.mem_cons_self _ _
      · exact List.mem_cons_of_mem _ (ih _ _ h')

lemma mem_of_mem_firstDedup {l : List (List Char)} {x : List Char}
    (h : x ∈ firstDedup l) : x ∈ l :=
  mem_of_mem_firstDedupGo l [] x h

lemma longWords_eq_nil {q : List Char}
    (h : ∀ w ∈ wordsIn (toLowerL q), w.length ≤ 3) : longWords q = [] := by
  rw [longWords, List.filter_eq_nil_iff]
  intro w hw
  have := h w (mem_of_mem_firstDedup hw)
  simp only [decide_eq_true_eq]
  omega

lemma sentenceScores_nil_qw (chunks : List (List Char)) :
    sentenceScores [] chunks = [] := by
  induction chunks with
  | nil => rfl
  | cons ch rest ih =>
    rw [sentenceScores] at ih ⊢
    rw [List.flatMap_cons, ih, List.append_nil]
    rw [List.filterMap_eq_nil_iff]
    intro s _
    simp

lemma r0_3_eq : r0_3 = (3 : ℚ)/10 := by
  rw [r0_3]
  norm_num [Rat.mk'_eq_divInt, Rat.divInt_eq_div]

lemma r0_2_eq : r0_2 = (1 : ℚ)/5 := by
  rw [r0_2]
  norm_num [Rat.mk'_eq_divInt, Rat.divInt_eq_div]

lemma getD_le_of_all {l : List ℚ} {b : ℚ} (h : ∀ x ∈ l, x ≤ b) (h0 : 0 ≤ b) :
    ∀ i, l.getD i 0 ≤ b := by
  induction l with
  | nil => intro i; simpa using h0
  | cons x xs ih =>
    intro i
    cases i with
    | zero => exact h x (List.mem_cons_self _ _)
    | succ j =>
      rw [List.getD_cons_succ]
      exact ih (fun y hy => h y (List.mem_cons_of_mem _ hy)) j

lemma filterMap_threshold_nil {sims : List ℚ} (cands : List (List Char))
    (idx : List ℕ) (h : ∀ x ∈ sims, x ≤ (3 : ℚ)/10) :
    idx.filterMap
      (fun i => if r0_3 < sims.getD i 0 then some (cands.getD i []) else none)
      = [] := by
  rw [List.filterMap_eq_nil_iff]
  intro i _
  rw [if_neg]
  rw [not_lt, r0_3_eq]
  exact getD_le_of_all h (by norm_num) i

/-! Section: Claim C1 -/

set_option maxRecDepth 8000 in
/-- Counterexample to C1: with three candidates of similarities
1/10, 1/5, 3/10 (none exceeding the 0.3 threshold), the ranker returns
the FIRST two candidates in original order (`chunks[:2]`), whereas the
top-2 by raw similarity — the claim's fallback, formalized here by the
ranker's own descending argsort `rankIdx` — would be the third then the
second candidate. -/
theorem ranker_below_threshold_counterexample :
    findRelevantChunks
        (some (fun _ c => if c = ("cccc").data then r0_3
          else if c = ("bbbb").data then r0_2 else r0_1))
        (("q?").data) [("aaaa").data, ("bbbb").data, ("cccc").data]
      = [("aaaa").data, ("bbbb").data] ∧
    (rankIdx 2 ([("aaaa").data, ("bbbb").data, ("cccc").data].map
        ((fun _ c => if c = ("cccc").data then r0_3
          else if c = ("bbbb").data then r0_2 else r0_1) (("q?").data)))).map
        (fun i => [("aaaa").data, ("bbbb").data, ("cccc").data].getD i [])
      = [("cccc").data, ("bbbb").data] ∧
    ([("aaaa").data, ("bbbb").data] : List (List Char))
      ≠ [("cccc").data, ("bbbb").data] := by
  refine ⟨by decide, by decide, by decide⟩

/-- Amended C1: when the embedder is available and no candidate's
similarity exceeds the 0.3 threshold, the ranker falls back to the
FIRST 2 (chunk-level) / FIRST 3 (sentence-level) candidates in original
candidate order — not the top ones by raw similarity — and in
particular does not return an empty result when candidates exist. -/
theorem ranker_below_threshold (f : List Char → List Char → ℚ)
    (question : List Char) (chunks : List (List Char)) (doc : List Char)
    (hc : ∀ c ∈ chunks, f question c ≤ (3 : ℚ)/10)
    (hs : ∀ s ∈ splitIntoSentences doc, f question s ≤ (3 : ℚ)/10) :
    findRelevantChunks (some f) question chunks = chunks.take 2 ∧
    findRelevantSentences (some f) question doc
      = (splitIntoSentences doc).take 3 ∧
    (chunks ≠ [] → findRelevantChunks (some f) question chunks ≠ []) ∧
    (splitIntoSentences doc ≠ [] →
      findRelevantSentences (some f) question doc ≠ []) := by
  have hmc : ∀ x ∈ chunks.map (f question), x ≤ (3 : ℚ)/10 := by
    intro x hx
    obtain ⟨c, hcm, rfl⟩ := List.mem_map.mp hx
    exact hc c hcm
  have hms : ∀ x ∈ (splitIntoSentences doc).map (f question), x ≤ (3 : ℚ)/10 := by
    intro x hx
    obtain ⟨s, hsm, rfl⟩ := List.mem_map.mp hx
    exact hs s hsm
  have h1 : findRelevantChunks (some f) question chunks = chunks.take 2 := by
    simp only [findRelevantChunks]
    rw [filterMap_threshold_nil chunks _ hmc]
    simp
  have h2 : findRelevantSentences (some f) question doc
      = (splitIntoSentences doc).take 3 := by
    simp only [findRelevantSentences]
    rw [filterMap_threshold_nil (splitIntoSentences doc) _ hms]
    simp
  refine ⟨h1, h2, ?_, ?_⟩
  · intro hne
    rw [h1]
    simp [List.take_eq_nil_iff, hne]
  · intro hne
    rw [h2]
    simp [List.take_eq_nil_iff, hne]

/-- Witness for C1's amended statement: a constant similarity of 1/4,
three chunk candidates and a two-sentence document. -/
theorem ranker_below_threshold_witness :
    findRelevantChunks (some (fun _ _ => (1 : ℚ)/4)) (("q?").data)
        [("aaaa").data, ("bbbb").data, ("cccc").data]
      = [("aaaa").data, ("bbbb").data, ("cccc").data].take 2 ∧
    findRelevantSentences (some (fun _ _ => (1 : ℚ)/4)) (("q?").data)
        (("The cat sat on the mat. The mat was red.").data)
      = (splitIntoSentences
          (("The cat sat on the mat. The mat was red.").data)).take 3 ∧
    findRelevantChunks (some (fun _ _ => (1 : ℚ)/4)) (("q?").data)
        [("aaaa").data, ("bbbb").data, ("cccc").data] ≠ [] ∧
    findRelevantSentences (some (fun _ _ => (1 : ℚ)/4)) (("q?").data)
        (("The cat sat on the mat. The mat was red.").data) ≠ [] := by
  have h := ranker_below_threshold (fun _ _ => (1 : ℚ)/4) (("q?").data)
    [("aaaa").data, ("bbbb").data, ("cccc").data]
    (("The cat sat on the mat. The mat was red.").data)
    (fun c _ => by norm_num) (fun s _ => by norm_num)
  exact ⟨h.1, h.2.1, h.2.2.1 (by decide), h.2.2.2 (by decide)⟩

/-! Section: Claim C5 -/

/-- Counterexample to C5: two candidates with equal similarity 1/2
(both above threshold) come back in REVERSED original order, because
the ranker reverses a stable ascending argsort. -/
theorem ranker_tie_counterexample :
    findRelevantChunks (some (fun _ _ => rHalf)) (("q?").data)
        [("aaaa").data, ("bbbb").data]
      = [("bbbb").data, ("aaaa").data] ∧
    ([("bbbb").data, ("aaaa").data] : List (List Char))
      ≠ [("aaaa").data, ("bbbb").data] := by
  refine ⟨by decide, by decide⟩

lemma insertA_perm (x : ℕ × ℚ) (l : List (ℕ × ℚ)) :
    List.Perm (insertA x l) (x :: l) := by
  induction l with
  | nil => rw [insertA]
  | cons y r ih =>
    rw [insertA]
    by_cases h : x.2 ≤ y.2
    · rw [if_pos h]
    · rw [if_neg h]
      exact (List.Perm.cons y ih).trans (List.Perm.swap x y r)

lemma mem_insertA {z x : ℕ × ℚ} {l : List (ℕ × ℚ)} (h : z ∈ insertA x l) :
    z = x ∨ z ∈ l := by
  have := (insertA_perm x l).mem_iff.mp h
  simpa using this

lemma isortQ_perm (l : List (ℕ × ℚ)) : List.Perm (isortQ l) l := by
  induction l with
  | nil => rfl
  | cons x xs ih =>
    rw [isortQ]
    exact (insertA_perm x (isortQ xs)).trans (List.Perm.cons x ih)

lemma argOrd_le2 {p q : ℕ × ℚ} (h : argOrd p q) : p.2 ≤ q.2 := by
  rcases h with h | ⟨h, _⟩
  · exact le_of_lt h
  · exact le_of_eq h

lemma insertA_pairwise {x : ℕ × ℚ} {l : List (ℕ × ℚ)}
    (hl : List.Pairwise argOrd l) (hx : ∀ y ∈ l, x.1 < y.1) :
    List.Pairwise argOrd (insertA x l) := by
  induction l with
  | nil =>
    rw [insertA]
    exact List.pairwise_singleton _ _
  | cons y r ih =>
    rw [insertA]
    rcases List.pairwise_cons.mp hl with ⟨hy, hr⟩
    by_cases h : x.2 ≤ y.2
    · rw [if_pos h]
      refine List.pairwise_cons.mpr ⟨?_, hl⟩
      intro z hz
      rcases List.mem_cons.mp hz with rfl | hz'
      · rcases lt_or_eq_of_le h with hlt | heq
        · exact Or.inl hlt
        · exact Or.inr ⟨heq, hx _ (List.mem_cons_self _ _)⟩
      · have h2 : y.2 ≤ z.2 := argOrd_le2 (hy z hz')
        rcases lt_or_eq_of_le (le_trans h h2) with hlt | heq
        · exact Or.inl hlt
        · exact Or.inr ⟨heq, hx _ (List.mem_cons_of_mem _ hz')⟩
    · rw [if_neg h]
      push_neg at h
      refine List.pairwise_cons.mpr
        ⟨?_, ih hr (fun z hz => hx _ (List.mem_cons_of_mem _ hz))⟩
      intro z hz
      rcases mem_insertA hz with rfl | hz'
      · exact Or.inl h
      · exact hy z hz'

lemma isortQ_pairwise {l : List (ℕ × ℚ)}
    (hidx : List.Pairwise (fun p q : ℕ × ℚ => p.1 < q.1) l) :
    List.Pairwise argOrd (isortQ l) := by
  induction l with
  | nil => exact List.Pairwise.nil
  | cons x xs ih =>
    rw [isortQ]
    rcases List.pairwise_cons.mp hidx with ⟨hx, hxs⟩
    refine insertA_pairwise (ih hxs) ?_
    intro y hy
    exact hx y ((isortQ_perm xs).mem_iff.mp hy)

lemma mem_enumFromIdx_ge {l : List ℚ} :
    ∀ {n : ℕ} {p : ℕ × ℚ}, p ∈ enumFromIdx n l → n ≤ p.1 := by
  induction l with
  | nil => intro n p h; simp [enumFromIdx] at h
  | cons x xs ih =>
    intro n p h
    rw [enumFromIdx] at h
    rcases List.mem_cons.mp h with rfl | h'
    · exact le_refl n
    · exact le_trans (Nat.le_succ n) (ih h')

lemma mem_enumFromIdx_getD {l : List ℚ} :
    ∀ {n : ℕ} {p : ℕ × ℚ}, p ∈ enumFromIdx n l → l.getD (p.1 - n) 0 = p.2 := by
  induction l with
  | nil => intro n p h; simp [enumFromIdx] at h
  | cons x xs ih =>
    intro n p h
    rw [enumFromIdx] at h
    rcases List.mem_cons.mp h with rfl | h'
    · simp
    · have h1 : n + 1 ≤ p.1 := mem_enumFromIdx_ge h'
      have h3 : p.1 - n = (p.1 - (n + 1)) + 1 := by omega
      rw [h3, List.getD_cons_succ]
      exact ih h'

lemma enumFromIdx_pairwise (l : List ℚ) :
    ∀ n, List.Pairwise (fun p q : ℕ × ℚ => p.1 < q.1) (enumFromIdx n l) := by
  induction l with
  | nil => intro n; exact List.Pairwise.nil
  | cons x xs ih =>
    intro n
    rw [enumFromIdx]
    refine List.pairwise_cons.mpr ⟨?_, ih (n + 1)⟩
    intro p hp
    exact lt_of_lt_of_le (Nat.lt_succ_self n) (mem_enumFromIdx_ge hp)

/-- Amended C5: in the primary ranking, consecutive entries of the
index ranking are ordered by strictly descending similarity, and two
candidates with EQUAL similarity appear in reverse original order
(larger index first) — the `[::-1]` reversal of the stable ascending
argsort inverts ties instead of preserving them. -/
theorem rankIdx_tie_reverse_order (k : ℕ) (sims : List ℚ) :
    List.Pairwise
      (fun i j => sims.getD j 0 < sims.getD i 0 ∨
        (sims.getD j 0 = sims.getD i 0 ∧ j < i))
      (rankIdx k sims) := by
  have h0 : List.Pairwise argOrd (isortQ (enumFromIdx 0 sims)) :=
    isortQ_pairwise (enumFromIdx_pairwise sims 0)
  have hmem : ∀ p ∈ isortQ (enumFromIdx 0 sims), sims.getD p.1 0 = p.2 := by
    intro p hp
    have h := mem_enumFromIdx_getD ((isortQ_perm _).mem_iff.mp hp)
    simpa using h
  have h1 : List.Pairwise
      (fun p q : ℕ × ℚ => sims.getD p.1 0 < sims.getD q.1 0 ∨
        (sims.getD p.1 0 = sims.getD q.1 0 ∧ p.1 < q.1))
      (isortQ (enumFromIdx 0 sims)) := by
    refine h0.imp_of_mem ?_
    intro a b ha hb hab
    rw [hmem a ha, hmem b hb]
    exact hab
  have h2 : List.Pairwise
      (fun i j => sims.getD i 0 < sims.getD j 0 ∨
        (sims.getD i 0 = sims.getD j 0 ∧ i < j))
      ((isortQ (enumFromIdx 0 sims)).map Prod.fst) :=
    List.pairwise_map.mpr h1
  have h3 : List.Pairwise
      (fun i j => sims.getD j 0 < sims.getD i 0 ∨
        (sims.getD j 0 = sims.getD i 0 ∧ j < i))
      (((isortQ (enumFromIdx 0 sims)).map Prod.fst).reverse) :=
    List.pairwise_reverse.mpr h2
  rw [rankIdx]
  exact List.Pairwise.sublist (List.take_sublist _ _) h3

/-! Section: Claim C10 -/

/-- Claim C10: when every token of the question has length ≤ 3, the
lexical fallback filters them all out, never forms the overlap ratio
(whose guard `overlap > 0` cannot hold for an empty question-word set,
so the `len(question_words)` denominator is never consulted on an empty
set), and returns the fixed could-not-find response with empty
evidence. -/
theorem fallback_short_tokens_terminal (question : List Char)
    (chunks : List (List Char))
    (h : ∀ w ∈ wordsIn (toLowerL question), w.length ≤ 3) :
    generateFallbackAnswer question chunks = (noAnswerMsg, []) := by
  rw [generateFallbackAnswer, longWords_eq_nil h, sentenceScores_nil_qw]
  rfl

set_option maxRecDepth 8000 in
/-- Witness for C10 at the question "is it ok?" (tokens `is`, `it`,
`ok`, all of length ≤ 3) and a one-chunk candidate list. -/
theorem fallback_short_tokens_terminal_witness :
    (∀ w ∈ wordsIn (toLowerL (("is it ok?").data)), w.length ≤ 3) ∧
    generateFallbackAnswer (("is it ok?").data)
      [("The cat sat on the mat.").data] = (noAnswerMsg, []) :=
  ⟨by decide, fallback_short_tokens_terminal _ _ (by decide)⟩

/-! Section: Claim C4 -/

set_option maxRecDepth 8000 in
/-- Counterexample to C4: on the spec's own scenario document and
question, the lexical fallback does NOT select "The mat was red." —
the words `mat` and `red` have length 3 and are removed by the
strictly-greater-than-3 token filter, so no sentence has positive
overlap; the path returns the fixed could-not-find answer, whose text
does not contain "red", with empty evidence. -/
theorem fallback_cat_mat_counterexample :
    generateFallbackAnswer (("What color is the mat?").data)
        (findRelevantChunks none (("What color is the mat?").data)
          (splitDocumentIntoChunks
            (("The cat sat on the mat. The mat was red. Cats like red mats.").data)))
      = (noAnswerMsg, []) ∧
    containsSub (("red").data) noAnswerMsg = false := by
  constructor
  · decide
  · decide

set_option maxRecDepth 8000 in
/-- Amended C4: for the scenario document and question, the
lexical-fallback path returns the fixed could-not-find response with
empty evidence (because "mat" and "red", being length-3 words, are
excluded by the tokenizer's `len(w) > 3` filter on both the question
and the sentences). -/
theorem fallback_cat_mat_amended :
    generateFallbackAnswer (("What color is the mat?").data)
        (findRelevantChunks none (("What color is the mat?").data)
          (splitDocumentIntoChunks
            (("The cat sat on the mat. The mat was red. Cats like red mats.").data)))
      = (noAnswerMsg, []) := by
  decide

/-! Section: Claim C6 -/

lemma subseg_append_right {s t w : List Char} (h : SubSeg s t) :
    SubSeg s (t ++ w) := by
  obtain ⟨u, v, rfl⟩ := h
  exact ⟨u, v ++ w, by simp⟩

lemma subseg_trans {x p t : List Char} (h1 : SubSeg x p) (h2 : SubSeg p t) :
    SubSeg x t := by
  obtain ⟨u1, v1, rfl⟩ := h1
  obtain ⟨u2, v2, rfl⟩ := h2
  exact ⟨u2 ++ u1, v1 ++ v2, by simp⟩

lemma stripL_subseg (s : List Char) : SubSeg (stripL s) s := by
  refine ⟨List.takeWhile isWSChar s,
    (List.takeWhile isWSChar (List.dropWhile isWSChar s).reverse).reverse, ?_⟩
  have h1 : List.dropWhile isWSChar s =
      stripL s ++ (List.takeWhile isWSChar (List.dropWhile isWSChar s).reverse).reverse := by
    rw [stripL]
    conv_lhs => rw [← List.reverse_reverse (List.dropWhile isWSChar s)]
    conv_lhs =>
      rw [← List.takeWhile_append_dropWhile isWSChar
        (List.dropWhile isWSChar s).reverse]
    rw [List.reverse_append]
  conv_lhs => rw [← List.takeWhile_append_dropWhile isWSChar s, h1]
  exact (List.append_assoc _ _ _).symm

lemma stripL_sublist (s : List Char) : List.Sublist (stripL s) s := by
  obtain ⟨u, v, h⟩ := stripL_subseg s
  conv_rhs => rw [h, List.append_assoc]
  exact (List.sublist_append_left (stripL s) v).trans
    (List.sublist_append_right u (stripL s ++ v))

lemma flatten_sublist {l₁ l₂ : List (List Char)} (h : List.Sublist l₁ l₂) :
    List.Sublist l₁.flatten l₂.flatten := by
  induction h with
  | slnil => exact List.Sublist.refl []
  | cons a h ih =>
    rw [List.flatten_cons]
    exact ih.trans (List.sublist_append_right _ _)
  | cons₂ a h ih =>
    rw [List.flatten_cons, List.flatten_cons]
    exact ih.append_left a

lemma flatten_map_stripL_sublist (l : List (List Char)) :
    List.Sublist (l.map stripL).flatten l.flatten := by
  induction l with
  | nil => exact List.Sublist.refl []
  | cons x xs ih =>
    rw [List.map_cons, List.flatten_cons, List.flatten_cons]
    exact List.Sublist.append (stripL_sublist x) ih

lemma splitStep_foldl_inv :
    ∀ (cs acc : List Char) (st : SplitSt),
      (∀ p ∈ st.pieces, SubSeg p acc) →
      (∃ u, acc = u ++ st.cur) →
      List.Sublist (st.pieces.flatten ++ st.cur) acc →
      (st.inSep = true → st.cur = []) →
      (∀ p ∈ (cs.foldl splitStep st).pieces, SubSeg p (acc ++ cs)) ∧
      (∃ u, acc ++ cs = u ++ (cs.foldl splitStep st).cur) ∧
      List.Sublist ((cs.foldl splitStep st).pieces.flatten
        ++ (cs.foldl splitStep st).cur) (acc ++ cs) ∧
      ((cs.foldl splitStep st).inSep = true → (cs.foldl splitStep st).cur = []) := by
  intro cs
  induction cs with
  | nil =>
    intro acc st h1 h2 h3 h4
    simpa using ⟨h1, h2, h3, h4⟩
  | cons c cs ih =>
    intro acc st h1 h2 h3 h4
    have key : (∀ p ∈ (splitStep st c).pieces, SubSeg p (acc ++ [c])) ∧
        (∃ u, acc ++ [c] = u ++ (splitStep st c).cur) ∧
        List.Sublist ((splitStep st c).pieces.flatten ++ (splitStep st c).cur)
          (acc ++ [c]) ∧
        ((splitStep st c).inSep = true → (splitStep st c).cur = []) := by
      rw [splitStep]
      by_cases hsep : st.inSep
      · rw [if_pos hsep]
        have hcur : st.cur = [] := h4 hsep
        by_cases hws : isWSChar c
        · rw [if_pos hws]
          refine ⟨fun p hp => subseg_append_right (h1 p hp),
            ⟨acc ++ [c], by rw [hcur, List.append_nil]⟩, ?_, fun _ => hcur⟩
          exact h3.trans (List.sublist_append_left _ _)
        · rw [if_neg hws]
          refine ⟨fun p hp => subseg_append_right (h1 p hp), ⟨acc, rfl⟩, ?_,
            fun h => by simp at h⟩
          rw [hcur, List.append_nil] at h3
          exact List.Sublist.append h3 (List.Sublist.refl [c])
      · rw [if_neg hsep]
        by_cases hpw : st.lastPunct && isWSChar c
        · rw [if_pos hpw]
          obtain ⟨u, hu⟩ := h2
          refine ⟨?_, ⟨acc ++ [c], by rw [List.append_nil]⟩, ?_, fun _ => rfl⟩
          · intro p hp
            rcases List.mem_append.mp hp with hp' | hp'
            · exact subseg_append_right (h1 p hp')
            · have hpc : p = st.cur := by simpa using hp'
              subst hpc
              exact subseg_append_right ⟨u, [], by rw [hu, List.append_nil]⟩
          · rw [List.append_nil, List.flatten_append, List.flatten_cons,
              List.flatten_nil, List.append_nil]
            exact h3.trans (List.sublist_append_left _ _)
        · rw [if_neg hpw]
          obtain ⟨u, hu⟩ := h2
          refine ⟨fun p hp => subseg_append_right (h1 p hp),
            ⟨u, by rw [hu, List.append_assoc]⟩, ?_, fun h => by simp at h⟩
          rw [← List.append_assoc]
          exact List.Sublist.append h3 (List.Sublist.refl [c])
    have hres := ih (acc ++ [c]) (splitStep st c) key.1 key.2.1 key.2.2.1 key.2.2.2
    rw [List.append_assoc, List.singleton_append] at hres
    simpa [List.foldl_cons] using hres

lemma reSplitSent_inv (cs : List Char) :
    (∀ p ∈ reSplitSent cs, SubSeg p cs) ∧
    List.Sublist (reSplitSent cs).flatten cs := by
  have h := splitStep_foldl_inv cs [] ⟨[], [], false, false⟩
    (by simp) ⟨[], rfl⟩ (by simp) (by simp)
  rw [List.nil_append] at h
  obtain ⟨h1, ⟨u, hu⟩, h3, _⟩ := h
  rw [reSplitSent]
  constructor
  · intro p hp
    rcases List.mem_append.mp hp with hp' | hp'
    · exact h1 p hp'
    · have hpc : p = (cs.foldl splitStep ⟨[], [], false, false⟩).cur := by
        simpa using hp'
      subst hpc
      refine ⟨u, [], ?_⟩
      conv_lhs => rw [hu]
      rw [List.append_nil]
  · rw [List.flatten_append, List.flatten_cons, List.flatten_nil,
      List.append_nil]
    exact h3

/-- Claim C6: every sentence produced by the segmenter has length > 10 and occurs
verbatim and contiguously in the input, and the concatenation of the
output sentences is an (order-preserving) sublist of the input — the
sentences appear in source order. -/
theorem segmenter_spec (cs : List Char) :
    (∀ s ∈ splitIntoSentences cs, 10 < s.length ∧ SubSeg s cs) ∧
    List.Sublist (splitIntoSentences cs).flatten cs := by
  obtain ⟨hp, hj⟩ := reSplitSent_inv cs
  constructor
  · intro s hs
    rcases List.mem_filter.mp hs with ⟨hs1, hs2⟩
    obtain ⟨p, hpm, rfl⟩ := List.mem_map.mp hs1
    exact ⟨by simpa using hs2, subseg_trans (stripL_subseg p) (hp p hpm)⟩
  · have hfil : List.Sublist (splitIntoSentences cs)
        ((reSplitSent cs).map stripL) := by
      rw [splitIntoSentences]
      exact List.filter_sublist _
    exact ((flatten_sublist hfil).trans
      (flatten_map_stripL_sublist (reSplitSent cs))).trans hj

set_option maxRecDepth 8000 in
/-- Witness for C6: the first sentence of a concrete two-sentence
document. -/
theorem segmenter_spec_witness :
    10 < (("The cat sat on the mat.").data).length ∧
    SubSeg (("The cat sat on the mat.").data)
      (("The cat sat on the mat. The mat was red.").data) :=
  (segmenter_spec (("The cat sat on the mat. The mat was red.").data)).1
    (("The cat sat on the mat.").data) (by decide)

/-! Section: Claim C3 -/

/-- Claim C3: for signals in [0,1]³ the combined score equals exactly
the 0.4/0.3/0.3 weighted sum (the clamp is the identity there) and lies
in [0,1]. -/
theorem combineScores_weighted (s k c : ℚ)
    (hs0 : 0 ≤ s) (hs1 : s ≤ 1) (hk0 : 0 ≤ k) (hk1 : k ≤ 1)
    (hc0 : 0 ≤ c) (hc1 : c ≤ 1) :
    combineScores s k c
        = s * ((2 : ℚ)/5) + k * ((3 : ℚ)/10) + c * ((3 : ℚ)/10) ∧
    0 ≤ combineScores s k c ∧ combineScores s k c ≤ 1 := by
  have h0 : 0 ≤ s * ((2 : ℚ)/5) + k * ((3 : ℚ)/10) + c * ((3 : ℚ)/10) := by nlinarith
  have h1 : s * ((2 : ℚ)/5) + k * ((3 : ℚ)/10) + c * ((3 : ℚ)/10) ≤ 1 := by nlinarith
  rw [combineScores, max_eq_left h0, min_eq_left h1]
  exact ⟨rfl, h0, h1⟩

/-- Witness for C3 at signals (1/2, 1/2, 1/2). -/
theorem combineScores_weighted_witness :
    combineScores ((1 : ℚ)/2) ((1 : ℚ)/2) ((1 : ℚ)/2)
        = ((1 : ℚ)/2) * ((2 : ℚ)/5) + ((1 : ℚ)/2) * ((3 : ℚ)/10)
          + ((1 : ℚ)/2) * ((3 : ℚ)/10) ∧
    0 ≤ combineScores ((1 : ℚ)/2) ((1 : ℚ)/2) ((1 : ℚ)/2) ∧
    combineScores ((1 : ℚ)/2) ((1 : ℚ)/2) ((1 : ℚ)/2) ≤ 1 :=
  combineScores_weighted _ _ _ (by norm_num) (by norm_num) (by norm_num)
    (by norm_num) (by norm_num) (by norm_num)

/-! Section: Claim C8 -/

set_option maxHeartbeats 2000000 in
/-- Claim C8: the 8-band score-to-letter-grade table is monotone — a
strictly smaller score never receives a strictly higher letter grade. -/
theorem getGrade_monotone (s1 s2 : ℚ) (h : s1 < s2) :
    gradeRank (getGrade s1) ≤ gradeRank (getGrade s2) := by
  rw [getGrade, getGrade]
  split_ifs <;> first | decide | linarith

/-- Witness for C8 at scores 1/4 < 19/20. -/
theorem getGrade_monotone_witness :
    gradeRank (getGrade ((1 : ℚ)/4)) ≤ gradeRank (getGrade ((19 : ℚ)/20)) :=
  getGrade_monotone _ _ (by norm_num)

/-! Section: Claim C2 -/

lemma validResults_append (l₁ l₂ : List QAInput) :
    validResults (l₁ ++ l₂) = validResults l₁ ++ validResults l₂ := by
  rw [validResults, validResults, validResults, List.filterMap_append]

/-- The full invariant of the `_generate_qa_answer` loop: the running
best is the strict maximum over the valid results seen so far with the
first maximizer winning ties, and every accumulated source sentence
contains (case-insensitively) the answer of the chunk it was cited
from. -/
lemma qa_fold_inv (l : List QAInput) :
    ((l.foldl qaStep qaInit).bestAnswer = [] →
      (l.foldl qaStep qaInit).bestScore = 0 ∧
      ∀ v ∈ validResults l, v.1 ≤ 0) ∧
    ((l.foldl qaStep qaInit).bestAnswer ≠ [] →
      0 < (l.foldl qaStep qaInit).bestScore ∧
      ∃ pre post,
        validResults l = pre ++ ((l.foldl qaStep qaInit).bestScore,
          (l.foldl qaStep qaInit).bestAnswer) :: post ∧
        (∀ v ∈ pre, v.1 < (l.foldl qaStep qaInit).bestScore) ∧
        (∀ v ∈ post, v.1 ≤ (l.foldl qaStep qaInit).bestScore)) ∧
    (∀ s ∈ (l.foldl qaStep qaInit).sources,
      ∃ c sc a, (c, some (sc, a)) ∈ l ∧ a ≠ [] ∧ s ∈ splitIntoSentences c ∧
        containsSub (toLowerL a) (toLowerL s) = true) := by
  induction l using List.reverseRecOn with
  | nil =>
    refine ⟨fun _ => ⟨rfl, by simp [validResults]⟩, fun hb => absurd rfl hb,
      fun s hs => absurd hs (by simp [qaInit])⟩
  | append_singleton l x ih =>
    obtain ⟨ih1, ih2, ih3⟩ := ih
    rw [List.foldl_append, List.foldl_cons, List.foldl_nil,
      validResults_append]
    obtain ⟨c, r⟩ := x
    rcases r with _ | ⟨sc, a⟩
    · -- extractor raised on this chunk: state unchanged
      simp only [qaStep]
      refine ⟨fun hb => ⟨(ih1 hb).1, ?_⟩, fun hb => ?_, fun s hs => ?_⟩
      · intro v hv
        rw [show validResults [(c, none)] = [] from rfl, List.append_nil] at hv
        exact (ih1 hb).2 v hv
      · obtain ⟨hpos, pre, post, hdec, hpre, hpost⟩ := ih2 hb
        refine ⟨hpos, pre, post, ?_, hpre, hpost⟩
        rw [show validResults [(c, none)] = [] from rfl, List.append_nil, hdec]
      · obtain ⟨c', sc', a', hm, ha', hsp, hct⟩ := ih3 s hs
        exact ⟨c', sc', a', List.mem_append_left _ hm, ha', hsp, hct⟩
    · by_cases ha : a = []
      · -- empty answer: never adopted, not a valid result
        subst ha
        have hstep : qaStep (l.foldl qaStep qaInit) (c, some (sc, [])) =
            l.foldl qaStep qaInit := by
          simp [qaStep]
        rw [hstep, show validResults [(c, some (sc, []))] = [] by
          simp [validResults], List.append_nil]
        refine ⟨ih1, ih2, fun s hs => ?_⟩
        obtain ⟨c', sc', a', hm, ha', hsp, hct⟩ := ih3 s hs
        exact ⟨c', sc', a', List.mem_append_left _ hm, ha', hsp, hct⟩
      · have hval : validResults [(c, some (sc, a))] = [(sc, a)] := by
          simp [validResults, ha]
        rw [hval]
        by_cases hlt : (l.foldl qaStep qaInit).bestScore < sc
        · -- strictly better non-empty answer: adopted
          have hstep : qaStep (l.foldl qaStep qaInit) (c, some (sc, a)) =
              { bestAnswer := a, bestScore := sc,
                sources := (l.foldl qaStep qaInit).sources ++
                  (match (splitIntoSentences c).find?
                      (fun s => containsSub (toLowerL a) (toLowerL s)) with
                    | some s => [s]
                    | none => []) } := by
            simp only [qaStep]
            rw [if_pos ⟨hlt, ha⟩]
          rw [hstep]
          refine ⟨fun hb => absurd hb ha, fun _ => ⟨?_, validResults l, [], rfl, ?_, by simp⟩,
            fun s hs => ?_⟩
          · by_cases hb : (l.foldl qaStep qaInit).bestAnswer = []
            · have h0 := (ih1 hb).1
              rw [h0] at hlt
              exact hlt
            · exact lt_trans (ih2 hb).1 hlt
          · intro v hv
            by_cases hb : (l.foldl qaStep qaInit).bestAnswer = []
            · have h0 := (ih1 hb).1
              have hv0 := (ih1 hb).2 v hv
              rw [h0] at hlt
              exact lt_of_le_of_lt hv0 hlt
            · obtain ⟨hpos, pre, post, hdec, hpre, hpost⟩ := ih2 hb
              rw [hdec] at hv
              rcases List.mem_append.mp hv with hv' | hv'
              · exact lt_trans (hpre v hv') hlt
              · rcases List.mem_cons.mp hv' with rfl | hv''
                · exact hlt
                · exact lt_of_le_of_lt (hpost v hv'') hlt
          · rcases List.mem_append.mp hs with hs' | hs'
            · obtain ⟨c', sc', a', hm, ha', hsp, hct⟩ := ih3 s hs'
              exact ⟨c', sc', a', List.mem_append_left _ hm, ha', hsp, hct⟩
            · rcases hfind : (splitIntoSentences c).find?
                  (fun s => containsSub (toLowerL a) (toLowerL s)) with _ | s'
              · rw [hfind] at hs'
                simp at hs'
              · rw [hfind] at hs'
                have hss : s = s' := by simpa using hs'
                subst hss
                refine ⟨c, sc, a, List.mem_append_right _ (by simp), ha,
                  List.mem_of_find?_eq_some hfind, ?_⟩
                have hq := List.find?_some hfind
                simpa using hq
        · -- not strictly better: state unchanged, result still recorded
          have hstep : qaStep (l.foldl qaStep qaInit) (c, some (sc, a)) =
              l.foldl qaStep qaInit := by
            simp only [qaStep]
            rw [if_neg (fun hcon => hlt hcon.1)]
          rw [hstep]
          have hle : sc ≤ (l.foldl qaStep qaInit).bestScore := not_lt.mp hlt
          refine ⟨fun hb => ⟨(ih1 hb).1, ?_⟩, fun hb => ?_, fun s hs => ?_⟩
          · intro v hv
            rcases List.mem_append.mp hv with hv' | hv'
            · exact (ih1 hb).2 v hv'
            · have hvs : v = (sc, a) := by simpa using hv'
              subst hvs
              have h0 := (ih1 hb).1
              rw [h0] at hle
              exact hle
          · obtain ⟨hpos, pre, post, hdec, hpre, hpost⟩ := ih2 hb
            refine ⟨hpos, pre, post ++ [(sc, a)], ?_, hpre, ?_⟩
            · rw [hdec, List.append_assoc, List.cons_append]
            · intro v hv
              rcases List.mem_append.mp hv with hv' | hv'
              · exact hpost v hv'
              · have hvs : v = (sc, a) := by simpa using hv'
                subst hvs
                exact hle
          · obtain ⟨c', sc', a', hm, ha', hsp, hct⟩ := ih3 s hs
            exact ⟨c', sc', a', List.mem_append_left _ hm, ha', hsp, hct⟩

set_option maxRecDepth 8000 in
/-- Counterexample to C2: two chunks, the first yielding answer "foo"
with confidence 1/2 and the second answer "bar" with confidence 9/10.
The winning answer is "bar", but the returned evidence still contains
the sentence cited for the earlier running best ("The foo is here
today."), which does not contain "bar" case-insensitively — the source
list accumulates across best-answer updates. -/
theorem qa_evidence_counterexample :
    (generateQAAnswer (("q?").data)
        [((("The foo is here today.").data), some (rHalf, ("foo").data)),
         ((("The bar is there today.").data), some (rNine10, ("bar").data))]).1
      = ("bar").data ∧
    (("The foo is here today.").data) ∈ (generateQAAnswer (("q?").data)
        [((("The foo is here today.").data), some (rHalf, ("foo").data)),
         ((("The bar is there today.").data), some (rNine10, ("bar").data))]).2 ∧
    containsSub (toLowerL (("bar").data))
      (toLowerL (("The foo is here today.").data)) = false := by
  refine ⟨by decide, by decide, by decide⟩

/-- Amended C2: when the loop adopts some answer, the span-extractor
path returns exactly the running-best answer together with the
accumulated citations; that answer is the highest-confidence non-empty
one under strict greater-than comparison (everything before its
position among the valid results scores strictly less — first highest
wins ties — and everything after scores no more); and every cited
sentence belongs to some chunk and contains, case-insensitively, that
chunk's own non-empty extractor answer (the answer that was the running
best when the citation was recorded), though not necessarily the final
winning answer. -/
theorem qa_answer_spec (question : List Char) (inputs : List QAInput) :
    ((inputs.foldl qaStep qaInit).bestAnswer ≠ [] →
      generateQAAnswer question inputs
          = ((inputs.foldl qaStep qaInit).bestAnswer,
             (inputs.foldl qaStep qaInit).sources) ∧
      0 < (inputs.foldl qaStep qaInit).bestScore ∧
      ∃ pre post,
        validResults inputs = pre ++ ((inputs.foldl qaStep qaInit).bestScore,
          (inputs.foldl qaStep qaInit).bestAnswer) :: post ∧
        (∀ v ∈ pre, v.1 < (inputs.foldl qaStep qaInit).bestScore) ∧
        (∀ v ∈ post, v.1 ≤ (inputs.foldl qaStep qaInit).bestScore)) ∧
    (∀ s ∈ (inputs.foldl qaStep qaInit).sources,
      ∃ c sc a, (c, some (sc, a)) ∈ inputs ∧ a ≠ [] ∧
        s ∈ splitIntoSentences c ∧
        containsSub (toLowerL a) (toLowerL s) = true) := by
  have h := qa_fold_inv inputs
  refine ⟨fun hb => ⟨?_, h.2.1 hb⟩, h.2.2⟩
  rw [generateQAAnswer, if_neg hb]

set_option maxRecDepth 8000 in
/-- Witness for C2's amended statement at the two-chunk counterexample
input: the output is the fold's best answer with its accumulated
sources, and the final cited sentence contains its own chunk's
answer. -/
theorem qa_answer_spec_witness :
    generateQAAnswer (("q?").data)
        [((("The foo is here today.").data), some (rHalf, ("foo").data)),
         ((("The bar is there today.").data), some (rNine10, ("bar").data))]
      = (([((("The foo is here today.").data), some (rHalf, ("foo").data)),
           ((("The bar is there today.").data),
            some (rNine10, ("bar").data))].foldl qaStep qaInit).bestAnswer,
         ([((("The foo is here today.").data), some (rHalf, ("foo").data)),
           ((("The bar is there today.").data),
            some (rNine10, ("bar").data))].foldl qaStep qaInit).sources) ∧
    (∃ c sc a,
      (c, some (sc, a)) ∈
        [((("The foo is here today.").data), some (rHalf, ("foo").data)),
         ((("The bar is there today.").data), some (rNine10, ("bar").data))] ∧
      a ≠ [] ∧ (("The bar is there today.").data) ∈ splitIntoSentences c ∧
      containsSub (toLowerL a)
        (toLowerL (("The bar is there today.").data)) = true) := by
  have h := qa_answer_spec (("q?").data)
    [((("The foo is here today.").data), some (rHalf, ("foo").data)),
     ((("The bar is there today.").data), some (rNine10, ("bar").data))]
  exact ⟨(h.1 (by decide)).1, h.2 (("The bar is there today.").data) (by decide)⟩

/-! Section: Claim C9 -/

/-- Claim C9: an empty user answer yields a well-formed Evaluation with
score 0 (and percentage 0, grade F) and feedback "No answer provided",
for every capability configuration, question and document — the model
is a total function, so no exception reaches the caller. -/
theorem evaluateAnswer_empty_answer (sim : Option (List Char → List Char → ℚ))
    (stopWords : List (List Char)) (question : Option Question)
    (documentText : List Char) :
    evaluateAnswer sim stopWords question [] documentText =
      { score := 0, percentage := 0,
        feedback := ("No answer provided").data,
        analysis := ("Please provide a detailed answer.").data,
        grade := ("F").data } := by
  cases question with
  | none =>
    show createEvaluation 0 (("No answer provided").data)
        (("Please provide a detailed answer.").data) = _
    rw [createEvaluation]
    congr 1 <;> first
      | rfl
      | norm_num [pyRound, roundHalfEven, getGrade]
  | some q =>
    show createEvaluation 0 (("No answer provided").data)
        (("Please provide a detailed answer.").data) = _
    rw [createEvaluation]
    congr 1 <;> first
      | rfl
      | norm_num [pyRound, roundHalfEven, getGrade]

/-! Section: Claim C7 -/

/-- Claim C7: for any stop-word list, random oracle and document whose
stripped text has at least 100 characters and from which at least 2
qualifying key concepts are extracted, the challenge generator returns
exactly 3 questions. -/
theorem generateQuestions_length (stopWords : List (List Char))
    (oracle : ℕ → ℕ) (documentText : List Char)
    (hlen : 100 ≤ (stripL documentText).length)
    (hkc : 2 ≤ (extractKeyConcepts stopWords documentText).length) :
    (generateQuestions stopWords oracle documentText).length = 3 := by
  have hr : ∀ (used : List (List Char)) (k : ℕ),
      ∃ q, generateSingleQuestion (extractKeyConcepts stopWords documentText)
        used oracle k = some q := by
    intro used k
    rw [generateSingleQuestion, if_neg (by omega)]
    exact ⟨_, rfl⟩
  obtain ⟨q1, h1⟩ := hr [] 0
  simp only [generateQuestions]
  rw [if_neg (by omega), if_neg (by omega), h1]
  simp only [Option.toList_some, Option.map_some', Option.getD_some]
  obtain ⟨q2, h2⟩ := hr q1.concepts 3
  rw [h2]
  simp only [Option.toList_some, Option.map_some', Option.getD_some]
  obtain ⟨q3, h3⟩ := hr (q1.concepts ++ q2.concepts) 6
  rw [h3]
  simp

set_option maxRecDepth 8000 in
/-- Witness for C7: a 109-character document in which `alpha` and
`beta` each occur ten times, the empty stop-word list and the constant
oracle. -/
theorem generateQuestions_length_witness :
    100 ≤ (stripL (("alpha beta alpha beta alpha beta alpha beta alpha beta alpha beta alpha beta alpha beta alpha beta alpha beta").data)).length ∧
    2 ≤ (extractKeyConcepts []
      (("alpha beta alpha beta alpha beta alpha beta alpha beta alpha beta alpha beta alpha beta alpha beta alpha beta").data)).length ∧
    (generateQuestions [] (fun _ => 0)
      (("alpha beta alpha beta alpha beta alpha beta alpha beta alpha beta alpha beta alpha beta alpha beta alpha beta").data)).length = 3 :=
  ⟨by decide, by decide,
    generateQuestions_length [] (fun _ => 0) _ (by decide) (by decide)⟩

end NeuraDoc
